import Mathlib

/-!
Shallow embedding of the reflex-tile arcade run engine (the `GameBoard`
component): difficulty profiles, the bounded-rejection target selector
`pickCell`, the survival-countdown tick, the penalty/reward time economy,
the tap handlers `registerHit` / `registerMiss`, the one-shot `endRun`
latch, and the `reset` (start/restart) transition.

Numbers are modelled as exact rationals (`ℚ`).  JS `Math.round` is
`⌊x + 1/2⌋` (round half toward +∞), `x.toFixed(2)` prefixed by unary `+`
is rounding to two decimals with ties toward +∞, and `Math.floor` is `⌊·⌋`.
Randomness is passed in explicitly: each `Math.random()` draw is a rational
in `[0, 1)` supplied by the events.  The host serialises the three event
sources (countdown tick, reaction deadline, pointer input), so a run is a
fold of a step function over a list of events.
-/

namespace ReflexTile

/-- JS `Math.round`: round half toward positive infinity. -/
def jsRound (q : ℚ) : ℤ := ⌊q + 1/2⌋

/-- JS `+(x).toFixed(2)`: round to two decimals, ties toward positive
infinity, as used by the countdown tick `+(prev - 0.1).toFixed(2)`. -/
def roundTo2 (q : ℚ) : ℚ := (⌊100 * q + 1/2⌋ : ℚ) / 100

/-- The `clamp` helper of the source: `Math.min(Math.max(value, min), max)`. -/
def clamp (value lo hi : ℚ) : ℚ := min (max value lo) hi

/-- JS `String.prototype.trim`, on the character list of the string:
drop whitespace from both ends. -/
def jsTrim (cs : List Char) : List Char :=
  ((cs.dropWhile Char.isWhitespace).reverse.dropWhile Char.isWhitespace).reverse

/-- A difficulty profile: the immutable coefficient bundle from the
`DIFFICULTY` table. -/
structure Profile where
  startTime : ℚ
  missPenalty : ℚ
  hazardChance : ℚ
  timeRewardCap : ℚ
  paceBase : ℚ
  paceFloor : ℚ
  paceScoreFactor : ℚ
  paceStreakFactor : ℚ
  rewardBonus : ℚ
  rewardFloor : ℚ
  rewardSlope : ℚ
  rewardStreakFactor : ℚ
  minGain : ℚ
  wrongClickPenalty : ℚ
deriving DecidableEq

/-- `DIFFICULTY.normal`. -/
def normal : Profile where
  startTime := 30
  missPenalty := 4
  hazardChance := 0
  timeRewardCap := 50
  paceBase := 1900
  paceFloor := 900
  paceScoreFactor := 4.5
  paceStreakFactor := 9
  rewardBonus := 0.8
  rewardFloor := 0.55
  rewardSlope := 940
  rewardStreakFactor := 0.012
  minGain := 1.1
  wrongClickPenalty := 1.4

/-- `DIFFICULTY.hard`. -/
def hard : Profile where
  startTime := 25
  missPenalty := 4.5
  hazardChance := 0.08
  timeRewardCap := 40
  paceBase := 1500
  paceFloor := 700
  paceScoreFactor := 6.5
  paceStreakFactor := 12
  rewardBonus := 0.65
  rewardFloor := 0.38
  rewardSlope := 900
  rewardStreakFactor := 0.018
  minGain := 0.85
  wrongClickPenalty := 1.6

/-- `DIFFICULTY.extreme`. -/
def extreme : Profile where
  startTime := 20
  missPenalty := 5
  hazardChance := 0.14
  timeRewardCap := 34
  paceBase := 1250
  paceFloor := 550
  paceScoreFactor := 8.5
  paceStreakFactor := 15
  rewardBonus := 0.55
  rewardFloor := 0.32
  rewardSlope := 860
  rewardStreakFactor := 0.023
  minGain := 0.75
  wrongClickPenalty := 1.9

/-- The rejection-sampling loop of `pickCell`:
`while (disallow.has(next) && attempts < 40) { next = Math.floor(Math.random() * count); attempts += 1 }`.
`fuel` is `40 - attempts`; `rand a` is the value of the `a`-th
`Math.random()` call. -/
def pickCellGo (disallow : List ℤ) (count : ℕ) (rand : ℕ → ℚ) :
    ℕ → ℕ → ℤ → ℤ
  | 0, _, next => next
  | fuel + 1, attempts, next =>
    if disallow.contains next then
      pickCellGo disallow count rand fuel (attempts + 1) ⌊rand attempts * (count : ℚ)⌋
    else next

/-- `pickCell(previous, banned, count)`: bounded rejection sampling over
`disallow = new Set([previous, ...banned])`, at most 40 draws. -/
def pickCell (previous : ℤ) (banned : List ℤ) (count : ℕ) (rand : ℕ → ℚ) : ℤ :=
  pickCellGo (previous :: banned) count rand 40 0 previous

/-- The engine status: `'idle' | 'playing' | 'paused' | 'done'`. -/
inductive Status
  | idle
  | playing
  | paused
  | done
deriving DecidableEq

/-- The run state.  `timeLeft` is the React state, `timeLeftRef` the
synchronously-read ref (they briefly diverge when the final tick stores a
negative remainder in the ref while the state is set to 0).  `misses` is
the React state counter and `missesRef` the ref counter read by `endRun`;
the wrong-tap and hazard branches bump only the ref.  `hits`,
`fastestHit`, `totalReactionMs` are updated identically in state and ref,
so a single field stands for both.  `emitted` counts `onFinish`
invocations. -/
structure GameState where
  status : Status
  timeLeft : ℚ
  timeLeftRef : ℚ
  score : ℤ
  streak : ℕ
  misses : ℕ
  missesRef : ℕ
  hits : ℕ
  fastestHit : Option ℤ
  totalReactionMs : ℚ
  maxStreak : ℕ
  activeCell : ℤ
  hazardCell : Option ℤ
  targetSpawnedAt : ℚ
  finished : Bool
  emitted : ℕ
deriving DecidableEq

/-- The random inputs one spawn may consume: the draws of the active-cell
`pickCell`, the hazard roll `Math.random() < hazardChance`, and the draws
of the hazard `pickCell`. -/
structure SpawnRand where
  activeRand : ℕ → ℚ
  hazardRoll : ℚ
  hazardRand : ℕ → ℚ

/-- `endRun`: the one-shot finalisation.  If the `finishedRef` latch is
set it is a no-op; otherwise it sets the latch, moves to `done` and
invokes `onFinish` exactly once (counted by `emitted`). -/
def endRun (s : GameState) : GameState :=
  if s.finished then s
  else { s with finished := true, status := Status.done, emitted := s.emitted + 1 }

/-- `applyTimePenalty(amount)`: floor the new time at 0, store it in both
the ref and the state, and end the run when it reached 0.  Returns the
`ended` flag together with the new state. -/
def applyTimePenalty (amount : ℚ) (s : GameState) : Bool × GameState :=
  let newTime := max 0 (s.timeLeftRef - amount)
  let s1 := { s with timeLeftRef := newTime, timeLeft := newTime }
  if newTime ≤ 0 then (true, endRun s1) else (false, s1)

/-- `spawnNewTarget()`: pick the next active cell (previous excluded),
record the spawn timestamp, and roll the optional hazard cell (the new
active cell excluded). -/
def spawnNewTarget (p : Profile) (count : ℕ) (now : ℚ) (r : SpawnRand)
    (s : GameState) : GameState :=
  let next := pickCell s.activeCell [] count r.activeRand
  { s with
    activeCell := next
    targetSpawnedAt := now
    hazardCell :=
      if r.hazardRoll < p.hazardChance then
        some (pickCell next [next] count r.hazardRand)
      else none }

/-- `registerMiss()`: the reaction-deadline expiry.  Only acts while
`playing`; resets the streak, bumps both miss counters, applies
`missPenalty`, and spawns a new target unless the penalty ended the run. -/
def registerMiss (p : Profile) (count : ℕ) (now : ℚ) (r : SpawnRand)
    (s : GameState) : GameState :=
  if s.status = Status.playing then
    let s1 := { s with streak := 0, misses := s.misses + 1, missesRef := s.missesRef + 1 }
    let res := applyTimePenalty p.missPenalty s1
    if res.1 then res.2 else spawnNewTarget p count now r res.2
  else s

/-- `registerHit(cellIndex)`: the pointer-down handler.  Only acts while
`playing`.  Hazard branch: clear the hazard, reset the streak, bump the
ref miss counter, dock 10 points (floored at 0), apply `missPenalty + 1`,
spawn unless ended.  Wrong-tile branch: reset the streak, bump the ref
miss counter, apply `wrongClickPenalty`, no spawn.  Correct branch:
reaction `now - targetSpawnedAt` (no clamping in the source), stats,
score gain `15 + max(2, round((1200 - reaction)/30)) + max(0, streak-1)*4`
floored at 0, streak increment, time reward clamped into
`[0, timeRewardCap]`, then spawn. -/
def registerHit (p : Profile) (count : ℕ) (cell : ℤ) (now : ℚ) (r : SpawnRand)
    (s : GameState) : GameState :=
  if s.status = Status.playing then
    if some cell = s.hazardCell then
      let s1 := { s with
        hazardCell := none
        streak := 0
        missesRef := s.missesRef + 1
        score := max (s.score - 10) 0 }
      let res := applyTimePenalty (p.missPenalty + 1) s1
      if res.1 then res.2 else spawnNewTarget p count now r res.2
    else if cell ≠ s.activeCell then
      let s1 := { s with streak := 0, missesRef := s.missesRef + 1 }
      (applyTimePenalty p.wrongClickPenalty s1).2
    else
      let reaction := now - s.targetSpawnedAt
      let reactionRounded := jsRound reaction
      let fastest : Option ℤ :=
        match s.fastestHit with
        | none => some reactionRounded
        | some f => some (min f reactionRounded)
      let speedBonus := max 2 (jsRound ((1200 - reaction) / 30))
      let streakBonus := max 0 ((s.streak : ℤ) - 1) * 4
      let gained := 15 + speedBonus + streakBonus
      let newStreak := s.streak + 1
      let timeReward :=
        max p.rewardFloor
          (5/4 - reaction / p.rewardSlope - (s.streak : ℚ) * p.rewardStreakFactor)
      let gain := max p.minGain (timeReward + p.rewardBonus)
      let newTime := clamp (s.timeLeftRef + gain) 0 p.timeRewardCap
      spawnNewTarget p count now r
        { s with
          fastestHit := fastest
          totalReactionMs := s.totalReactionMs + reaction
          hits := s.hits + 1
          score := max (s.score + gained) 0
          streak := newStreak
          maxStreak := max s.maxStreak newStreak
          timeLeftRef := newTime
          timeLeft := newTime }
  else s

/-- One 100 ms countdown tick:
`setTimeLeft(prev => { const next = +(prev - 0.1).toFixed(2); timeLeftRef.current = next; if (next <= 0) { endRun(); return 0 } return next })`.
The interval callback itself performs no status check (the guard is only
which effects are armed), so a tick is modelled as possible in any state —
a superset of the host's schedules. -/
def tickStep (s : GameState) : GameState :=
  let next := roundTo2 (s.timeLeft - 1/10)
  if next ≤ 0 then endRun { s with timeLeft := 0, timeLeftRef := next }
  else { s with timeLeft := next, timeLeftRef := next }

/-- `reset()` past its name guard: clear the latch and every counter,
re-derive `timeLeft` from the profile, spawn the first target (previous
index `-1`), roll the first hazard (guarded by `hazardChance > 0`), and
set status `playing`.  `emitted` is external bookkeeping and is not a
piece of program state, so it is left untouched. -/
def resetRun (p : Profile) (count : ℕ) (now : ℚ) (r : SpawnRand)
    (s : GameState) : GameState :=
  let next := pickCell (-1) [] count r.activeRand
  { s with
    finished := false
    timeLeftRef := p.startTime
    status := Status.playing
    timeLeft := p.startTime
    score := 0
    streak := 0
    misses := 0
    missesRef := 0
    hits := 0
    fastestHit := none
    totalReactionMs := 0
    maxStreak := 0
    activeCell := next
    targetSpawnedAt := now
    hazardCell :=
      if 0 < p.hazardChance ∧ r.hazardRoll < p.hazardChance then
        some (pickCell next [next] count r.hazardRand)
      else none }

/-- `reset()`: rejected as a no-op when the player name is empty or
whitespace-only (`!playerName || playerName.trim().length === 0`; the
falsy-empty-string check is subsumed by the trim-length check).  The
source performs no status check here. -/
def reset (name : String) (p : Profile) (count : ℕ) (now : ℚ) (r : SpawnRand)
    (s : GameState) : GameState :=
  if (jsTrim name.toList).length = 0 then s else resetRun p count now r s

/-- `difficultyWindow`: the adaptive reaction-deadline duration. -/
def difficultyWindow (p : Profile) (score : ℤ) (streak : ℕ) : ℚ :=
  max p.paceFloor
    (p.paceBase - (score : ℚ) * p.paceScoreFactor - (streak : ℚ) * p.paceStreakFactor)

/-- The serialised event sources of one run: a countdown tick, a tap on a
tile, a reaction-deadline expiry, the pause/resume key, and a late
(stale-timer) call reaching `endRun` directly. -/
inductive Event
  | tick
  | tap (cell : ℤ) (now : ℚ) (r : SpawnRand)
  | deadline (now : ℚ) (r : SpawnRand)
  | pauseKey
  | resumeKey
  | lateEnd

/-- Dispatch one event to the engine.  The pause/resume key toggles only
from the matching status, as in the `keydown` handler. -/
def step (p : Profile) (count : ℕ) : Event → GameState → GameState
  | Event.tick, s => tickStep s
  | Event.tap cell now r, s => registerHit p count cell now r s
  | Event.deadline now r, s => registerMiss p count now r s
  | Event.pauseKey, s => if s.status = Status.playing then { s with status := Status.paused } else s
  | Event.resumeKey, s => if s.status = Status.paused then { s with status := Status.playing } else s
  | Event.lateEnd, s => endRun s

/-- Fold a list of events over the engine. -/
def runTrace (p : Profile) (count : ℕ) : List Event → GameState → GameState
  | [], s => s
  | e :: es, s => runTrace p count es (step p count e s)

/-- The hazard roll an event consumes is a `Math.random()` value, hence
nonnegative. -/
def Event.rollOk : Event → Prop
  | Event.tap _ _ r => 0 ≤ r.hazardRoll
  | Event.deadline _ r => 0 ≤ r.hazardRoll
  | _ => True

/-- A zero random stream, used for concrete instantiations. -/
def rEx : SpawnRand where
  activeRand := fun _ => 0
  hazardRoll := 0
  hazardRand := fun _ => 0

/-- A concrete idle state, used for concrete instantiations. -/
def s0Ex : GameState where
  status := Status.idle
  timeLeft := 30
  timeLeftRef := 30
  score := 0
  streak := 0
  misses := 0
  missesRef := 0
  hits := 0
  fastestHit := none
  totalReactionMs := 0
  maxStreak := 0
  activeCell := 3
  hazardCell := none
  targetSpawnedAt := 0
  finished := false
  emitted := 0

/-- A concrete mid-run playing state: target on cell 3 spawned at time 0,
full clock, no hazard. -/
def sPlayEx : GameState where
  status := Status.playing
  timeLeft := 30
  timeLeftRef := 30
  score := 0
  streak := 0
  misses := 0
  missesRef := 0
  hits := 0
  fastestHit := none
  totalReactionMs := 0
  maxStreak := 0
  activeCell := 3
  hazardCell := none
  targetSpawnedAt := 0
  finished := false
  emitted := 0

/-- A concrete playing state whose target was spawned at timestamp 200,
for the reaction-clamping counterexample. -/
def sSpawn200Ex : GameState :=
  { sPlayEx with targetSpawnedAt := 200 }

/-- A concrete paused mid-run state with a nonzero score, for the
restart-from-paused counterexample. -/
def sPausedEx : GameState :=
  { sPlayEx with status := Status.paused, score := 7, streak := 2, timeLeft := 12, timeLeftRef := 12 }

/-- A concrete playing state with a hazard on cell 5. -/
def sHazardEx : GameState :=
  { sPlayEx with hazardCell := some 5, score := 25 }

/-- The time-economy invariant: the displayed clock stays in
`[0, timeRewardCap]`; away from `done` the synchronous ref agrees with the
state; and the latch implies the terminal status. -/
def TimeInv (p : Profile) (s : GameState) : Prop :=
  0 ≤ s.timeLeft ∧ s.timeLeft ≤ p.timeRewardCap ∧
    (s.status ≠ Status.done → s.timeLeftRef = s.timeLeft) ∧
    (s.finished = true → s.status = Status.done)

/-- The one-shot-summary invariant: the number of `onFinish` invocations
since the reset that set `emitted = e0` is 0 before the latch and 1
after. -/
def EmitInv (e0 : ℕ) (s : GameState) : Prop :=
  s.emitted = e0 + (if s.finished then 1 else 0)

/-! ### Projection lemmas -/

theorem endRun_timeLeft (s : GameState) : (endRun s).timeLeft = s.timeLeft := by
  unfold endRun; split <;> rfl

theorem endRun_timeLeftRef (s : GameState) : (endRun s).timeLeftRef = s.timeLeftRef := by
  unfold endRun; split <;> rfl

theorem endRun_score (s : GameState) : (endRun s).score = s.score := by
  unfold endRun; split <;> rfl

theorem endRun_streak (s : GameState) : (endRun s).streak = s.streak := by
  unfold endRun; split <;> rfl

theorem endRun_misses (s : GameState) : (endRun s).misses = s.misses := by
  unfold endRun; split <;> rfl

theorem endRun_missesRef (s : GameState) : (endRun s).missesRef = s.missesRef := by
  unfold endRun; split <;> rfl

theorem endRun_hits (s : GameState) : (endRun s).hits = s.hits := by
  unfold endRun; split <;> rfl

theorem endRun_activeCell (s : GameState) : (endRun s).activeCell = s.activeCell := by
  unfold endRun; split <;> rfl

theorem endRun_hazardCell (s : GameState) : (endRun s).hazardCell = s.hazardCell := by
  unfold endRun; split <;> rfl

theorem endRun_targetSpawnedAt (s : GameState) :
    (endRun s).targetSpawnedAt = s.targetSpawnedAt := by
  unfold endRun; split <;> rfl

theorem endRun_totalReactionMs (s : GameState) :
    (endRun s).totalReactionMs = s.totalReactionMs := by
  unfold endRun; split <;> rfl

theorem endRun_finished (s : GameState) : (endRun s).finished = true := by
  unfold endRun; split <;> simp_all

theorem spawnNewTarget_timeLeft (p : Profile) (count : ℕ) (now : ℚ) (r : SpawnRand)
    (s : GameState) : (spawnNewTarget p count now r s).timeLeft = s.timeLeft := rfl

theorem spawnNewTarget_timeLeftRef (p : Profile) (count : ℕ) (now : ℚ) (r : SpawnRand)
    (s : GameState) : (spawnNewTarget p count now r s).timeLeftRef = s.timeLeftRef := rfl

theorem spawnNewTarget_score (p : Profile) (count : ℕ) (now : ℚ) (r : SpawnRand)
    (s : GameState) : (spawnNewTarget p count now r s).score = s.score := rfl

theorem spawnNewTarget_streak (p : Profile) (count : ℕ) (now : ℚ) (r : SpawnRand)
    (s : GameState) : (spawnNewTarget p count now r s).streak = s.streak := rfl

theorem spawnNewTarget_misses (p : Profile) (count : ℕ) (now : ℚ) (r : SpawnRand)
    (s : GameState) : (spawnNewTarget p count now r s).misses = s.misses := rfl

theorem spawnNewTarget_missesRef (p : Profile) (count : ℕ) (now : ℚ) (r : SpawnRand)
    (s : GameState) : (spawnNewTarget p count now r s).missesRef = s.missesRef := rfl

theorem spawnNewTarget_hits (p : Profile) (count : ℕ) (now : ℚ) (r : SpawnRand)
    (s : GameState) : (spawnNewTarget p count now r s).hits = s.hits := rfl

theorem spawnNewTarget_status (p : Profile) (count : ℕ) (now : ℚ) (r : SpawnRand)
    (s : GameState) : (spawnNewTarget p count now r s).status = s.status := rfl

theorem spawnNewTarget_finished (p : Profile) (count : ℕ) (now : ℚ) (r : SpawnRand)
    (s : GameState) : (spawnNewTarget p count now r s).finished = s.finished := rfl

theorem spawnNewTarget_emitted (p : Profile) (count : ℕ) (now : ℚ) (r : SpawnRand)
    (s : GameState) : (spawnNewTarget p count now r s).emitted = s.emitted := rfl

theorem spawnNewTarget_totalReactionMs (p : Profile) (count : ℕ) (now : ℚ) (r : SpawnRand)
    (s : GameState) : (spawnNewTarget p count now r s).totalReactionMs = s.totalReactionMs := rfl

theorem spawnNewTarget_activeCell (p : Profile) (count : ℕ) (now : ℚ) (r : SpawnRand)
    (s : GameState) :
    (spawnNewTarget p count now r s).activeCell = pickCell s.activeCell [] count r.activeRand := rfl

theorem spawnNewTarget_targetSpawnedAt (p : Profile) (count : ℕ) (now : ℚ) (r : SpawnRand)
    (s : GameState) : (spawnNewTarget p count now r s).targetSpawnedAt = now := rfl

theorem spawnNewTarget_hazardCell (p : Profile) (count : ℕ) (now : ℚ) (r : SpawnRand)
    (s : GameState) :
    (spawnNewTarget p count now r s).hazardCell =
      if r.hazardRoll < p.hazardChance then
        some (pickCell (pickCell s.activeCell [] count r.activeRand)
          [pickCell s.activeCell [] count r.activeRand] count r.hazardRand)
      else none := rfl

/-! ### Arithmetic helpers -/

theorem roundTo2_le_add (q : ℚ) : roundTo2 q ≤ q + 1/200 := by
  unfold roundTo2
  have h := Int.floor_le (100 * q + 1/2)
  rw [div_le_iff₀ (by norm_num : (0:ℚ) < 100)]
  linarith

theorem floor_eval (q : ℚ) (n : ℤ) (h1 : (n : ℚ) ≤ q) (h2 : q < n + 1) : ⌊q⌋ = n := by
  rw [Int.floor_eq_iff]
  exact ⟨h1, by exact_mod_cast h2⟩

theorem jsRound_eval (q : ℚ) (n : ℤ) (h1 : (n : ℚ) ≤ q + 1/2) (h2 : q + 1/2 < n + 1) :
    jsRound q = n :=
  floor_eval _ _ h1 h2

/-! ### Generic trace preservation -/

theorem runTrace_preserve (p : Profile) (count : ℕ) (P : GameState → Prop) :
    ∀ (trace : List Event), (∀ e ∈ trace, ∀ s, P s → P (step p count e s)) →
      ∀ s, P s → P (runTrace p count trace s) := by
  intro trace
  induction trace with
  | nil => intro _ s hs; exact hs
  | cons e es ih =>
    intro hstep s hs
    exact ih (fun e' he' => hstep e' (List.mem_cons_of_mem _ he')) _
      (hstep e (List.mem_cons_self _ _) s hs)

theorem endRun_idem (s : GameState) : endRun (endRun s) = endRun s := by
  unfold endRun
  rcases hb : s.finished <;> simp [hb]

/-! ### Emission invariant -/

theorem emitInv_congr (e0 : ℕ) (s t : GameState) (hf : t.finished = s.finished)
    (he : t.emitted = s.emitted) (h : EmitInv e0 s) : EmitInv e0 t := by
  unfold EmitInv at *
  rw [hf, he, h]

theorem endRun_emitInv (e0 : ℕ) (s : GameState) (h : EmitInv e0 s) :
    EmitInv e0 (endRun s) := by
  unfold EmitInv endRun at *
  rcases hb : s.finished <;> simp [hb] at h ⊢ <;> omega

theorem applyTimePenalty_emitInv (e0 : ℕ) (amount : ℚ) (s : GameState)
    (h : EmitInv e0 s) : EmitInv e0 (applyTimePenalty amount s).2 := by
  unfold applyTimePenalty
  dsimp only
  split
  · exact endRun_emitInv e0 _ (emitInv_congr e0 s _ rfl rfl h)
  · exact emitInv_congr e0 s _ rfl rfl h

theorem step_emitInv (p : Profile) (count : ℕ) (e0 : ℕ) :
    ∀ (e : Event) (s : GameState), EmitInv e0 s → EmitInv e0 (step p count e s) := by
  intro e s h
  cases e with
  | tick =>
    show EmitInv e0 (tickStep s)
    unfold tickStep
    dsimp only
    split
    · exact endRun_emitInv e0 _ (emitInv_congr e0 s _ rfl rfl h)
    · exact emitInv_congr e0 s _ rfl rfl h
  | tap cell now r =>
    show EmitInv e0 (registerHit p count cell now r s)
    unfold registerHit
    dsimp only
    split
    · split
      · split
        · exact applyTimePenalty_emitInv e0 _ _ (emitInv_congr e0 s _ rfl rfl h)
        · exact emitInv_congr e0 _ _
            (spawnNewTarget_finished _ _ _ _ _) (spawnNewTarget_emitted _ _ _ _ _)
            (applyTimePenalty_emitInv e0 _ _ (emitInv_congr e0 s _ rfl rfl h))
      · split
        · exact applyTimePenalty_emitInv e0 _ _ (emitInv_congr e0 s _ rfl rfl h)
        · exact emitInv_congr e0 _ _
            (spawnNewTarget_finished _ _ _ _ _) (spawnNewTarget_emitted _ _ _ _ _)
            (emitInv_congr e0 s _ rfl rfl h)
    · exact h
  | deadline now r =>
    show EmitInv e0 (registerMiss p count now r s)
    unfold registerMiss
    dsimp only
    split
    · split
      · exact applyTimePenalty_emitInv e0 _ _ (emitInv_congr e0 s _ rfl rfl h)
      · exact emitInv_congr e0 _ _
          (spawnNewTarget_finished _ _ _ _ _) (spawnNewTarget_emitted _ _ _ _ _)
          (applyTimePenalty_emitInv e0 _ _ (emitInv_congr e0 s _ rfl rfl h))
    · exact h
  | pauseKey =>
    show EmitInv e0 _
    dsimp only [step]
    split
    · exact emitInv_congr e0 s _ rfl rfl h
    · exact h
  | resumeKey =>
    show EmitInv e0 _
    dsimp only [step]
    split
    · exact emitInv_congr e0 s _ rfl rfl h
    · exact h
  | lateEnd =>
    exact endRun_emitInv e0 s h

theorem resetRun_finished (p : Profile) (count : ℕ) (now : ℚ) (r : SpawnRand)
    (s : GameState) : (resetRun p count now r s).finished = false := rfl

theorem resetRun_emitted (p : Profile) (count : ℕ) (now : ℚ) (r : SpawnRand)
    (s : GameState) : (resetRun p count now r s).emitted = s.emitted := rfl

/-- C2: per run, the terminal summary is emitted exactly once.  Starting
from a fresh `resetRun`, after any serialised interleaving of countdown
ticks, taps, deadline expiries, pause/resume keys, and late stale-timer
`endRun` calls, the `onFinish` count has grown by exactly 1 if the run
finished and 0 otherwise; a further late `endRun` on top of an `endRun`
is a no-op (the `finishedRef` one-shot latch); and a start/restart clears
the latch. -/
theorem C2_summary_emitted_once (p : Profile) (count : ℕ) (now : ℚ) (r : SpawnRand)
    (s0 : GameState) (trace : List Event) :
    (runTrace p count trace (resetRun p count now r s0)).emitted =
        (resetRun p count now r s0).emitted +
          (if (runTrace p count trace (resetRun p count now r s0)).finished then 1 else 0) ∧
      endRun (endRun (runTrace p count trace (resetRun p count now r s0))) =
        endRun (runTrace p count trace (resetRun p count now r s0)) ∧
      (resetRun p count now r s0).finished = false ∧
      (resetRun p count now r (runTrace p count trace (resetRun p count now r s0))).finished
        = false := by
  refine ⟨?_, endRun_idem _, rfl, rfl⟩
  have h0 : EmitInv (resetRun p count now r s0).emitted (resetRun p count now r s0) := by
    unfold EmitInv
    rw [resetRun_finished]
    simp
  exact runTrace_preserve p count (EmitInv (resetRun p count now r s0).emitted) trace
    (fun e _ s hs => step_emitInv p count _ e s hs) _ h0

/-- C6: the reaction-deadline duration is
`max(paceFloor, paceBase − score·paceScoreFactor − streak·paceStreakFactor)`
for every profile of the difficulty table; it never drops below
`paceFloor` and is monotonically non-increasing in score and streak. -/
theorem C6_difficultyWindow_formula (p : Profile)
    (hp : p = normal ∨ p = hard ∨ p = extreme)
    (sc₁ sc₂ : ℤ) (st₁ st₂ : ℕ) (hsc : sc₁ ≤ sc₂) (hst : st₁ ≤ st₂) :
    difficultyWindow p sc₁ st₁ =
        max p.paceFloor
          (p.paceBase - (sc₁ : ℚ) * p.paceScoreFactor - (st₁ : ℚ) * p.paceStreakFactor) ∧
      p.paceFloor ≤ difficultyWindow p sc₁ st₁ ∧
      difficultyWindow p sc₂ st₂ ≤ difficultyWindow p sc₁ st₁ := by
  have hfac : (0:ℚ) ≤ p.paceScoreFactor ∧ (0:ℚ) ≤ p.paceStreakFactor := by
    rcases hp with h | h | h <;> subst h <;>
      exact ⟨by norm_num [normal, hard, extreme], by norm_num [normal, hard, extreme]⟩
  refine ⟨rfl, le_max_left _ _, ?_⟩
  have hsc' : (sc₁ : ℚ) ≤ (sc₂ : ℚ) := by exact_mod_cast hsc
  have hst' : (st₁ : ℚ) ≤ (st₂ : ℚ) := by exact_mod_cast hst
  unfold difficultyWindow
  apply max_le_max le_rfl
  have h1 := mul_le_mul_of_nonneg_right hsc' hfac.1
  have h2 := mul_le_mul_of_nonneg_right hst' hfac.2
  linarith

/-- Witness for C6 at the normal profile: score 0 → 10, streak 0 → 2. -/
theorem C6_difficultyWindow_formula_witness :
    (normal = normal ∨ normal = hard ∨ normal = extreme) ∧
      (0 : ℤ) ≤ 10 ∧ (0 : ℕ) ≤ 2 ∧
      (difficultyWindow normal 0 0 =
          max normal.paceFloor
            (normal.paceBase - ((0 : ℤ) : ℚ) * normal.paceScoreFactor
              - ((0 : ℕ) : ℚ) * normal.paceStreakFactor) ∧
        normal.paceFloor ≤ difficultyWindow normal 0 0 ∧
        difficultyWindow normal 10 2 ≤ difficultyWindow normal 0 0) :=
  ⟨Or.inl rfl, by norm_num, by norm_num,
    C6_difficultyWindow_formula normal (Or.inl rfl) 0 10 0 2 (by norm_num) (by norm_num)⟩

/-! ### Time-economy invariant -/

theorem timeInv_congr (p : Profile) (s t : GameState)
    (h1 : t.timeLeft = s.timeLeft) (h2 : t.timeLeftRef = s.timeLeftRef)
    (h3 : t.status = s.status) (h4 : t.finished = s.finished)
    (h : TimeInv p s) : TimeInv p t := by
  unfold TimeInv at *
  rw [h1, h2, h3, h4]
  exact h

theorem endRun_status_done (s : GameState)
    (h4 : s.finished = true → s.status = Status.done) :
    (endRun s).status = Status.done := by
  unfold endRun
  cases hb : s.finished with
  | false => simp [hb]
  | true => simp [hb]; exact h4 hb

theorem applyTimePenalty_timeInv (p : Profile) (amount : ℚ) (s : GameState)
    (hcap : 0 ≤ p.timeRewardCap) (hamt : 0 ≤ amount)
    (hs : s.status = Status.playing) (hinv : TimeInv p s) :
    TimeInv p (applyTimePenalty amount s).2 := by
  obtain ⟨h1, h2, h3, h4⟩ := hinv
  have href : s.timeLeftRef = s.timeLeft := h3 (by rw [hs]; intro hh; cases hh)
  have hfin : s.finished = false := by
    cases hb : s.finished with
    | false => rfl
    | true => have hd := h4 hb; rw [hs] at hd; cases hd
  unfold applyTimePenalty
  dsimp only
  split
  · -- penalty exhausted the clock: endRun on the zeroed state
    rename_i hzero
    refine ⟨?_, ?_, ?_, ?_⟩
    · rw [endRun_timeLeft]; exact le_max_left 0 _
    · rw [endRun_timeLeft]; exact le_trans hzero hcap
    · intro hne
      exact (hne (endRun_status_done _ (fun hb => by rw [hfin] at hb; cases hb))).elim
    · intro _
      exact endRun_status_done _ (fun hb => by rw [hfin] at hb; cases hb)
  · -- clock still positive
    rename_i hpos
    refine ⟨le_max_left 0 _, ?_, fun _ => rfl, ?_⟩
    · rw [href]
      exact max_le hcap (by linarith)
    · intro hb
      rw [hfin] at hb; cases hb

theorem step_timeInv (p : Profile) (count : ℕ)
    (hmp : 0 ≤ p.missPenalty) (hwc : 0 ≤ p.wrongClickPenalty)
    (hcap : 0 ≤ p.timeRewardCap) :
    ∀ (e : Event) (s : GameState), TimeInv p s → TimeInv p (step p count e s) := by
  intro e s hinv
  obtain ⟨h1, h2, h3, h4⟩ := hinv
  cases e with
  | tick =>
    show TimeInv p (tickStep s)
    unfold tickStep
    dsimp only
    split
    · -- final tick: state pinned to 0, ref takes the raw remainder, endRun
      refine ⟨?_, ?_, ?_, ?_⟩
      · rw [endRun_timeLeft]
      · rw [endRun_timeLeft]; exact hcap
      · intro hne
        exact (hne (endRun_status_done _ (fun hb => h4 hb))).elim
      · intro _
        exact endRun_status_done _ (fun hb => h4 hb)
    · rename_i hpos
      refine ⟨le_of_lt (lt_of_not_le hpos), ?_, fun _ => rfl, fun hb => h4 hb⟩
      have hr := roundTo2_le_add (s.timeLeft - 1/10)
      show roundTo2 (s.timeLeft - 1/10) ≤ p.timeRewardCap
      linarith
  | tap cell now r =>
    show TimeInv p (registerHit p count cell now r s)
    unfold registerHit
    dsimp only
    split
    · rename_i hplay
      split
      · -- hazard branch
        have hinv1 : TimeInv p
            { s with hazardCell := none, streak := 0, missesRef := s.missesRef + 1,
                     score := max (s.score - 10) 0 } :=
          timeInv_congr p s _ rfl rfl rfl rfl ⟨h1, h2, h3, h4⟩
        split
        · exact applyTimePenalty_timeInv p _ _ hcap (by linarith) hplay hinv1
        · exact timeInv_congr p _ _ (spawnNewTarget_timeLeft _ _ _ _ _)
            (spawnNewTarget_timeLeftRef _ _ _ _ _) (spawnNewTarget_status _ _ _ _ _)
            (spawnNewTarget_finished _ _ _ _ _)
            (applyTimePenalty_timeInv p _ _ hcap (by linarith) hplay hinv1)
      · split
        · -- wrong-tile branch
          have hinv1 : TimeInv p { s with streak := 0, missesRef := s.missesRef + 1 } :=
            timeInv_congr p s _ rfl rfl rfl rfl ⟨h1, h2, h3, h4⟩
          exact applyTimePenalty_timeInv p _ _ hcap hwc hplay hinv1
        · -- correct-tap branch
          have hfin : s.finished = false := by
            cases hb : s.finished with
            | false => rfl
            | true => have hd := h4 hb; rw [hplay] at hd; cases hd
          refine timeInv_congr p _ _ (spawnNewTarget_timeLeft _ _ _ _ _)
            (spawnNewTarget_timeLeftRef _ _ _ _ _) (spawnNewTarget_status _ _ _ _ _)
            (spawnNewTarget_finished _ _ _ _ _) ⟨?_, ?_, fun _ => rfl, ?_⟩
          · exact le_min (le_max_right _ 0) hcap
          · exact min_le_right _ _
          · intro hb
            rw [hfin] at hb; cases hb
    · exact ⟨h1, h2, h3, h4⟩
  | deadline now r =>
    show TimeInv p (registerMiss p count now r s)
    unfold registerMiss
    dsimp only
    split
    · rename_i hplay
      have hinv1 : TimeInv p
          { s with streak := 0, misses := s.misses + 1, missesRef := s.missesRef + 1 } :=
        timeInv_congr p s _ rfl rfl rfl rfl ⟨h1, h2, h3, h4⟩
      split
      · exact applyTimePenalty_timeInv p _ _ hcap hmp hplay hinv1
      · exact timeInv_congr p _ _ (spawnNewTarget_timeLeft _ _ _ _ _)
          (spawnNewTarget_timeLeftRef _ _ _ _ _) (spawnNewTarget_status _ _ _ _ _)
          (spawnNewTarget_finished _ _ _ _ _)
          (applyTimePenalty_timeInv p _ _ hcap hmp hplay hinv1)
    · exact ⟨h1, h2, h3, h4⟩
  | pauseKey =>
    show TimeInv p _
    dsimp only [step]
    split
    · rename_i hplay
      refine ⟨h1, h2, fun _ => h3 (by rw [hplay]; intro hh; cases hh), ?_⟩
      intro hb
      have hd := h4 hb; rw [hplay] at hd; cases hd
    · exact ⟨h1, h2, h3, h4⟩
  | resumeKey =>
    show TimeInv p _
    dsimp only [step]
    split
    · rename_i hpause
      refine ⟨h1, h2, fun _ => h3 (by rw [hpause]; intro hh; cases hh), ?_⟩
      intro hb
      have hd := h4 hb; rw [hpause] at hd; cases hd
    · exact ⟨h1, h2, h3, h4⟩
  | lateEnd =>
    show TimeInv p (endRun s)
    refine ⟨?_, ?_, ?_, ?_⟩
    · rw [endRun_timeLeft]; exact h1
    · rw [endRun_timeLeft]; exact h2
    · intro hne
      exact (hne (endRun_status_done _ (fun hb => h4 hb))).elim
    · intro _
      exact endRun_status_done _ (fun hb => h4 hb)

theorem resetRun_timeInv (p : Profile) (count : ℕ) (now : ℚ) (r : SpawnRand)
    (s : GameState) (hs0 : 0 ≤ p.startTime) (hsc : p.startTime ≤ p.timeRewardCap) :
    TimeInv p (resetRun p count now r s) :=
  ⟨hs0, hsc, fun _ => rfl, fun hb => by rw [resetRun_finished] at hb; cases hb⟩

/-- C1: for every profile of the difficulty table and every serialised
sequence of run events from a fresh start, `timeLeft` stays within
`[0, timeRewardCap]`: every penalty path floors the new value at 0, the
countdown pins the final tick to 0, and the correct-tap reward clamps
into `[0, timeRewardCap]`. -/
theorem C1_timeLeft_bounds (p : Profile)
    (hp : p = normal ∨ p = hard ∨ p = extreme)
    (count : ℕ) (now : ℚ) (r : SpawnRand) (s0 : GameState) (trace : List Event) :
    0 ≤ (runTrace p count trace (resetRun p count now r s0)).timeLeft ∧
      (runTrace p count trace (resetRun p count now r s0)).timeLeft ≤ p.timeRewardCap := by
  have hfacts : 0 ≤ p.missPenalty ∧ 0 ≤ p.wrongClickPenalty ∧ 0 ≤ p.timeRewardCap ∧
      0 ≤ p.startTime ∧ p.startTime ≤ p.timeRewardCap := by
    rcases hp with h | h | h <;> subst h <;>
      refine ⟨by norm_num [normal, hard, extreme], by norm_num [normal, hard, extreme],
        by norm_num [normal, hard, extreme], by norm_num [normal, hard, extreme],
        by norm_num [normal, hard, extreme]⟩
  obtain ⟨hmp, hwc, hcap, hs0, hsc⟩ := hfacts
  have hinv := runTrace_preserve p count (TimeInv p) trace
    (fun e _ s hs => step_timeInv p count hmp hwc hcap e s hs) _
    (resetRun_timeInv p count now r s0 hs0 hsc)
  exact ⟨hinv.1, hinv.2.1⟩

/-- Witness for C1: the normal profile, an empty trace. -/
theorem C1_timeLeft_bounds_witness :
    (normal = normal ∨ normal = hard ∨ normal = extreme) ∧
      (0 ≤ (runTrace normal 25 [] (resetRun normal 25 0 rEx s0Ex)).timeLeft ∧
        (runTrace normal 25 [] (resetRun normal 25 0 rEx s0Ex)).timeLeft
          ≤ normal.timeRewardCap) :=
  ⟨Or.inl rfl, C1_timeLeft_bounds normal (Or.inl rfl) 25 0 rEx s0Ex []⟩

/-! ### Target selector -/

theorem pickCellGo_succ (disallow : List ℤ) (count : ℕ) (rand : ℕ → ℚ)
    (fuel attempts : ℕ) (next : ℤ) :
    pickCellGo disallow count rand (fuel + 1) attempts next =
      if disallow.contains next then
        pickCellGo disallow count rand fuel (attempts + 1) ⌊rand attempts * (count : ℚ)⌋
      else next := rfl

theorem draw_range (count : ℕ) (hc : 1 ≤ count) (q : ℚ) (h0 : 0 ≤ q) (h1 : q < 1) :
    0 ≤ ⌊q * (count : ℚ)⌋ ∧ ⌊q * (count : ℚ)⌋ < count := by
  constructor
  · exact Int.floor_nonneg.mpr (mul_nonneg h0 (by positivity))
  · rw [Int.floor_lt]
    push_cast
    calc q * (count : ℚ) < 1 * (count : ℚ) := by
          apply mul_lt_mul_of_pos_right h1
          exact_mod_cast Nat.lt_of_lt_of_le Nat.zero_lt_one hc
      _ = (count : ℚ) := one_mul _

theorem pickCellGo_range (disallow : List ℤ) (count : ℕ) (rand : ℕ → ℚ)
    (hc : 1 ≤ count) (hr : ∀ i, 0 ≤ rand i ∧ rand i < 1) :
    ∀ (fuel attempts : ℕ) (next : ℤ), 0 ≤ next → next < count →
      0 ≤ pickCellGo disallow count rand fuel attempts next ∧
        pickCellGo disallow count rand fuel attempts next < count := by
  intro fuel
  induction fuel with
  | zero => intro attempts next h0 h1; exact ⟨h0, h1⟩
  | succ fuel ih =>
    intro attempts next h0 h1
    rw [pickCellGo_succ]
    split
    · exact ih _ _ (draw_range count hc _ (hr attempts).1 (hr attempts).2).1
        (draw_range count hc _ (hr attempts).1 (hr attempts).2).2
    · exact ⟨h0, h1⟩

theorem pickCell_step_one (previous : ℤ) (banned : List ℤ) (count : ℕ) (rand : ℕ → ℚ) :
    pickCell previous banned count rand =
      pickCellGo (previous :: banned) count rand 39 1 ⌊rand 0 * (count : ℚ)⌋ := by
  show pickCellGo (previous :: banned) count rand (39 + 1) 0 previous = _
  rw [pickCellGo_succ, if_pos]
  simp [List.contains_cons]

theorem pickCell_range (previous : ℤ) (banned : List ℤ) (count : ℕ) (rand : ℕ → ℚ)
    (hc : 1 ≤ count) (hr : ∀ i, 0 ≤ rand i ∧ rand i < 1) :
    0 ≤ pickCell previous banned count rand ∧ pickCell previous banned count rand < count := by
  rw [pickCell_step_one]
  exact pickCellGo_range (previous :: banned) count rand hc hr 39 1 _
    (draw_range count hc _ (hr 0).1 (hr 0).2).1
    (draw_range count hc _ (hr 0).1 (hr 0).2).2

theorem pickCellGo_excluded_eq (disallow : List ℤ) (count : ℕ) (rand : ℕ → ℚ) :
    ∀ (fuel attempts : ℕ) (next : ℤ),
      fuel + attempts = 40 →
      (attempts ≠ 0 → next = ⌊rand (attempts - 1) * (count : ℚ)⌋) →
      disallow.contains (pickCellGo disallow count rand fuel attempts next) = true →
      pickCellGo disallow count rand fuel attempts next = ⌊rand 39 * (count : ℚ)⌋ := by
  intro fuel
  induction fuel with
  | zero =>
    intro attempts next hsum hprev _
    have ha : attempts = 40 := by omega
    have h := hprev (by omega)
    show next = _
    rw [h, ha]
  | succ fuel ih =>
    intro attempts next hsum hprev hcont
    rw [pickCellGo_succ] at hcont ⊢
    rcases hd : disallow.contains next with _ | _
    · rw [hd] at hcont
      rw [if_neg Bool.false_ne_true] at hcont
      rw [hd] at hcont
      cases hcont
    · rw [hd] at hcont
      rw [if_pos rfl] at hcont
      rw [if_pos rfl]
      exact ih (attempts + 1) _ (by omega) (fun _ => by simp) hcont

theorem pickCellGo_rand_congr (disallow : List ℤ) (count : ℕ) (rand rand' : ℕ → ℚ) :
    ∀ (fuel attempts : ℕ) (next : ℤ),
      (∀ i, attempts ≤ i → i < attempts + fuel → rand i = rand' i) →
      pickCellGo disallow count rand fuel attempts next =
        pickCellGo disallow count rand' fuel attempts next := by
  intro fuel
  induction fuel with
  | zero => intro attempts next _; rfl
  | succ fuel ih =>
    intro attempts next hagree
    rw [pickCellGo_succ, pickCellGo_succ]
    split
    · rw [hagree attempts (le_refl _) (by omega)]
      exact ih (attempts + 1) _ (fun i hi hi' => hagree i (by omega) (by omega))
    · rfl

/-- C7 (amended): for `cellCount ≥ 1` and valid random draws, `pickCell`
always returns an index in `[0, cellCount)`; when the returned index
still lies in `{previous} ∪ excluded` (exhaustion of the 40-draw cap),
it is the 40th draw — not `previous` as the claim states; and the result
depends only on the first 40 draws, so at most 40 draws are performed. -/
theorem C7_pickCell_amended (previous : ℤ) (banned : List ℤ) (count : ℕ)
    (rand rand' : ℕ → ℚ) (hc : 1 ≤ count) (hr : ∀ i, 0 ≤ rand i ∧ rand i < 1)
    (hagree : ∀ i, i < 40 → rand i = rand' i) :
    0 ≤ pickCell previous banned count rand ∧
      pickCell previous banned count rand < count ∧
      ((previous :: banned).contains (pickCell previous banned count rand) = true →
        pickCell previous banned count rand = ⌊rand 39 * (count : ℚ)⌋) ∧
      pickCell previous banned count rand = pickCell previous banned count rand' := by
  refine ⟨(pickCell_range previous banned count rand hc hr).1,
    (pickCell_range previous banned count rand hc hr).2, ?_, ?_⟩
  · exact pickCellGo_excluded_eq (previous :: banned) count rand 40 0 previous
      (by norm_num) (fun h => absurd rfl h)
  · exact pickCellGo_rand_congr (previous :: banned) count rand rand' 40 0 previous
      (fun i hi hi' => hagree i (by omega))

/-- Witness for C7 at `count = 25`, the all-zero draw stream. -/
theorem C7_pickCell_amended_witness :
    (1 ≤ 25 ∧ (∀ i : ℕ, 0 ≤ (fun _ => (0 : ℚ)) i ∧ (fun _ => (0 : ℚ)) i < 1) ∧
        (∀ i : ℕ, i < 40 → (fun _ => (0 : ℚ)) i = (fun _ => (0 : ℚ)) i)) ∧
      (0 ≤ pickCell 3 [] 25 (fun _ => 0) ∧
        pickCell 3 [] 25 (fun _ => 0) < 25 ∧
        (((3 : ℤ) :: []).contains (pickCell 3 [] 25 (fun _ => 0)) = true →
          pickCell 3 [] 25 (fun _ => 0) = ⌊(fun _ => (0 : ℚ)) 39 * ((25 : ℕ) : ℚ)⌋) ∧
        pickCell 3 [] 25 (fun _ => 0) = pickCell 3 [] 25 (fun _ => 0)) :=
  ⟨⟨by norm_num, fun i => ⟨le_refl 0, by norm_num⟩, fun i _ => rfl⟩,
    C7_pickCell_amended 3 [] 25 (fun _ => 0) (fun _ => 0) (by norm_num)
      (fun i => ⟨le_refl 0, by norm_num⟩) (fun i _ => rfl)⟩

theorem pickCellGo_zero_stuck (fuel attempts : ℕ) :
    pickCellGo [(-1 : ℤ), 0] 1 (fun _ => 0) fuel attempts 0 = 0 := by
  induction fuel generalizing attempts with
  | zero => rfl
  | succ fuel ih =>
    rw [pickCellGo_succ]
    rw [if_pos (by decide)]
    have hz : (⌊(fun _ => (0 : ℚ)) attempts * ((1 : ℕ) : ℚ)⌋ : ℤ) = 0 := by
      simp
    rw [hz]
    exact ih (attempts + 1)

/-- Counterexample to C7 as stated: with `previous = -1`,
`excluded = {0}`, `cellCount = 1` and every draw landing on 0, the 40
draws are exhausted and `pickCell` returns 0 — the last draw, which lies
in the excluded set — not `previous = -1`. -/
theorem C7_pickCell_fallback_counterexample :
    pickCell (-1) [0] 1 (fun _ => 0) = 0 ∧
      ((-1 : ℤ) :: [0]).contains (0 : ℤ) = true ∧ (0 : ℤ) ≠ -1 := by
  refine ⟨?_, by decide, by decide⟩
  rw [pickCell_step_one]
  have hz : (⌊(fun _ => (0 : ℚ)) 0 * ((1 : ℕ) : ℚ)⌋ : ℤ) = 0 := by simp
  rw [hz]
  exact pickCellGo_zero_stuck 39 1

/-! ### Penalty characterisation -/

theorem applyTimePenalty_spec (amount : ℚ) (s : GameState) (hf : s.finished = false) :
    (applyTimePenalty amount s).2.timeLeft = max 0 (s.timeLeftRef - amount) ∧
      (applyTimePenalty amount s).2.timeLeftRef = max 0 (s.timeLeftRef - amount) ∧
      (applyTimePenalty amount s).2.streak = s.streak ∧
      (applyTimePenalty amount s).2.misses = s.misses ∧
      (applyTimePenalty amount s).2.missesRef = s.missesRef ∧
      (applyTimePenalty amount s).2.score = s.score ∧
      (applyTimePenalty amount s).2.hits = s.hits ∧
      (applyTimePenalty amount s).2.activeCell = s.activeCell ∧
      (applyTimePenalty amount s).2.hazardCell = s.hazardCell ∧
      (applyTimePenalty amount s).2.targetSpawnedAt = s.targetSpawnedAt ∧
      (s.timeLeftRef ≤ amount →
        (applyTimePenalty amount s).2.status = Status.done ∧
          (applyTimePenalty amount s).2.emitted = s.emitted + 1 ∧
          (applyTimePenalty amount s).1 = true) ∧
      (amount < s.timeLeftRef →
        (applyTimePenalty amount s).2.status = s.status ∧
          (applyTimePenalty amount s).2.emitted = s.emitted ∧
          (applyTimePenalty amount s).1 = false) := by
  unfold applyTimePenalty
  dsimp only
  by_cases hc : max 0 (s.timeLeftRef - amount) ≤ 0
  · rw [if_pos hc]
    have hle : s.timeLeftRef ≤ amount := by
      have h := (max_le_iff.mp hc).2
      linarith
    refine ⟨by rw [endRun_timeLeft], by rw [endRun_timeLeftRef], by rw [endRun_streak],
      by rw [endRun_misses], by rw [endRun_missesRef], by rw [endRun_score],
      by rw [endRun_hits], by rw [endRun_activeCell], by rw [endRun_hazardCell],
      by rw [endRun_targetSpawnedAt], ?_, ?_⟩
    · intro _
      refine ⟨?_, ?_, rfl⟩ <;> simp [endRun, hf]
    · intro h2
      exact absurd hle (not_le.mpr h2)
  · rw [if_neg hc]
    have hlt : amount < s.timeLeftRef := by
      rcases le_or_lt (s.timeLeftRef - amount) 0 with h | h
      · exact absurd (max_le (le_refl 0) h) hc
      · linarith
    refine ⟨rfl, rfl, rfl, rfl, rfl, rfl, rfl, rfl, rfl, rfl, ?_, fun _ => ⟨rfl, rfl, rfl⟩⟩
    intro h2
    exact absurd hlt (not_lt.mpr h2)

/-- C4: a wrong-tile tap while playing (neither the active nor the hazard
cell) resets the streak, bumps the miss counter read by the summary by
exactly 1, docks `wrongClickPenalty` from the clock (floored at 0, ending
the run when it reaches 0), and spawns nothing: `activeCell`,
`hazardCell`, `score`, `hits` and `targetSpawnedAt` are all unchanged. -/
theorem C4_wrong_tap (p : Profile) (count : ℕ) (cell : ℤ) (now : ℚ) (r : SpawnRand)
    (s : GameState) (hs : s.status = Status.playing) (hh : s.hazardCell ≠ some cell)
    (hc : cell ≠ s.activeCell) (hf : s.finished = false)
    (href : s.timeLeftRef = s.timeLeft) :
    (registerHit p count cell now r s).streak = 0 ∧
      (registerHit p count cell now r s).missesRef = s.missesRef + 1 ∧
      (registerHit p count cell now r s).timeLeft =
        max 0 (s.timeLeft - p.wrongClickPenalty) ∧
      0 ≤ (registerHit p count cell now r s).timeLeft ∧
      (registerHit p count cell now r s).activeCell = s.activeCell ∧
      (registerHit p count cell now r s).hazardCell = s.hazardCell ∧
      (registerHit p count cell now r s).score = s.score ∧
      (registerHit p count cell now r s).hits = s.hits ∧
      (registerHit p count cell now r s).targetSpawnedAt = s.targetSpawnedAt ∧
      (s.timeLeft ≤ p.wrongClickPenalty →
        (registerHit p count cell now r s).status = Status.done ∧
          (registerHit p count cell now r s).emitted = s.emitted + 1) ∧
      (p.wrongClickPenalty < s.timeLeft →
        (registerHit p count cell now r s).status = Status.playing) := by
  have key : registerHit p count cell now r s =
      (applyTimePenalty p.wrongClickPenalty
        { s with streak := 0, missesRef := s.missesRef + 1 }).2 := by
    unfold registerHit
    rw [if_pos hs, if_neg (fun h2 => hh h2.symm), if_pos hc]
  have hspec := applyTimePenalty_spec p.wrongClickPenalty
    { s with streak := 0, missesRef := s.missesRef + 1 } hf
  rw [key]
  obtain ⟨e1, e2, e3, e4, e5, e6, e7, e8, e9, e10, e11, e12⟩ := hspec
  refine ⟨e3, e5, ?_, ?_, e8, e9, e6, e7, e10, ?_, ?_⟩
  · rw [e1]
    show max 0 (s.timeLeftRef - p.wrongClickPenalty) = _
    rw [href]
  · rw [e1]
    exact le_max_left 0 _
  · intro hle
    have h11 := e11 (by show s.timeLeftRef ≤ _; rw [href]; exact hle)
    exact ⟨h11.1, h11.2.1⟩
  · intro hlt
    have h12 := e12 (by show _ < s.timeLeftRef; rw [href]; exact hlt)
    rw [h12.1, hs]

/-- Witness for C4: normal profile, wrong tap on cell 7 (active is 3, no
hazard) from the concrete playing state. -/
theorem C4_wrong_tap_witness :
    (sPlayEx.status = Status.playing ∧ sPlayEx.hazardCell ≠ some 7 ∧
        (7 : ℤ) ≠ sPlayEx.activeCell ∧ sPlayEx.finished = false ∧
        sPlayEx.timeLeftRef = sPlayEx.timeLeft) ∧
      ((registerHit normal 25 7 100 rEx sPlayEx).streak = 0 ∧
        (registerHit normal 25 7 100 rEx sPlayEx).missesRef = sPlayEx.missesRef + 1 ∧
        (registerHit normal 25 7 100 rEx sPlayEx).timeLeft =
          max 0 (sPlayEx.timeLeft - normal.wrongClickPenalty) ∧
        0 ≤ (registerHit normal 25 7 100 rEx sPlayEx).timeLeft ∧
        (registerHit normal 25 7 100 rEx sPlayEx).activeCell = sPlayEx.activeCell ∧
        (registerHit normal 25 7 100 rEx sPlayEx).hazardCell = sPlayEx.hazardCell ∧
        (registerHit normal 25 7 100 rEx sPlayEx).score = sPlayEx.score ∧
        (registerHit normal 25 7 100 rEx sPlayEx).hits = sPlayEx.hits ∧
        (registerHit normal 25 7 100 rEx sPlayEx).targetSpawnedAt = sPlayEx.targetSpawnedAt ∧
        (sPlayEx.timeLeft ≤ normal.wrongClickPenalty →
          (registerHit normal 25 7 100 rEx sPlayEx).status = Status.done ∧
            (registerHit normal 25 7 100 rEx sPlayEx).emitted = sPlayEx.emitted + 1) ∧
        (normal.wrongClickPenalty < sPlayEx.timeLeft →
          (registerHit normal 25 7 100 rEx sPlayEx).status = Status.playing)) :=
  ⟨⟨rfl, by simp [sPlayEx], by simp [sPlayEx], rfl, rfl⟩,
    C4_wrong_tap normal 25 7 100 rEx sPlayEx rfl (by simp [sPlayEx]) (by simp [sPlayEx])
      rfl rfl⟩

/-- C5: a hazard tap while playing docks 10 points (floored at 0), resets
the streak, bumps the miss counter read by the summary by 1, clears the
hazard cell, applies the `missPenalty + 1` time penalty (floored at 0),
and spawns a new target (with a fresh hazard roll) unless that penalty
ended the run. -/
theorem C5_hazard_tap (p : Profile) (count : ℕ) (cell : ℤ) (now : ℚ) (r : SpawnRand)
    (s : GameState) (hs : s.status = Status.playing) (hh : s.hazardCell = some cell)
    (hf : s.finished = false) (href : s.timeLeftRef = s.timeLeft) :
    (registerHit p count cell now r s).score = max (s.score - 10) 0 ∧
      (registerHit p count cell now r s).streak = 0 ∧
      (registerHit p count cell now r s).missesRef = s.missesRef + 1 ∧
      (registerHit p count cell now r s).timeLeft =
        max 0 (s.timeLeft - (p.missPenalty + 1)) ∧
      (s.timeLeft ≤ p.missPenalty + 1 →
        (registerHit p count cell now r s).status = Status.done ∧
          (registerHit p count cell now r s).hazardCell = none ∧
          (registerHit p count cell now r s).activeCell = s.activeCell ∧
          (registerHit p count cell now r s).emitted = s.emitted + 1) ∧
      (p.missPenalty + 1 < s.timeLeft →
        (registerHit p count cell now r s).status = Status.playing ∧
          (registerHit p count cell now r s).activeCell =
            pickCell s.activeCell [] count r.activeRand ∧
          (registerHit p count cell now r s).targetSpawnedAt = now ∧
          (registerHit p count cell now r s).hazardCell =
            (if r.hazardRoll < p.hazardChance then
              some (pickCell (pickCell s.activeCell [] count r.activeRand)
                [pickCell s.activeCell [] count r.activeRand] count r.hazardRand)
            else none)) := by
  have key : registerHit p count cell now r s =
      (if (applyTimePenalty (p.missPenalty + 1)
            { s with hazardCell := none, streak := 0, missesRef := s.missesRef + 1,
                     score := max (s.score - 10) 0 }).1 = true then
        (applyTimePenalty (p.missPenalty + 1)
          { s with hazardCell := none, streak := 0, missesRef := s.missesRef + 1,
                   score := max (s.score - 10) 0 }).2
      else
        spawnNewTarget p count now r
          (applyTimePenalty (p.missPenalty + 1)
            { s with hazardCell := none, streak := 0, missesRef := s.missesRef + 1,
                     score := max (s.score - 10) 0 }).2) := by
    unfold registerHit
    rw [if_pos hs, if_pos hh.symm]
  rw [key]
  obtain ⟨e1, e2, e3, e4, e5, e6, e7, e8, e9, e10, e11, e12⟩ :=
    applyTimePenalty_spec (p.missPenalty + 1)
      { s with hazardCell := none, streak := 0, missesRef := s.missesRef + 1,
               score := max (s.score - 10) 0 } hf
  by_cases hcase : s.timeLeft ≤ p.missPenalty + 1
  · have h11 := e11 (by show s.timeLeftRef ≤ _; rw [href]; exact hcase)
    rw [if_pos h11.2.2]
    refine ⟨e6, e3, e5, ?_, ?_, ?_⟩
    · rw [e1]
      show max 0 (s.timeLeftRef - (p.missPenalty + 1)) = _
      rw [href]
    · intro _
      exact ⟨h11.1, e9, e8, h11.2.1⟩
    · intro h2
      exact absurd h2 (not_lt.mpr hcase)
  · push_neg at hcase
    have h12 := e12 (by show _ < s.timeLeftRef; rw [href]; exact hcase)
    rw [if_neg (by rw [h12.2.2]; exact Bool.false_ne_true)]
    refine ⟨?_, ?_, ?_, ?_, ?_, ?_⟩
    · rw [spawnNewTarget_score]; exact e6
    · rw [spawnNewTarget_streak]; exact e3
    · rw [spawnNewTarget_missesRef]; exact e5
    · rw [spawnNewTarget_timeLeft, e1]
      show max 0 (s.timeLeftRef - (p.missPenalty + 1)) = _
      rw [href]
    · intro h2
      exact absurd hcase (not_lt.mpr h2)
    · intro _
      refine ⟨?_, ?_, ?_, ?_⟩
      · rw [spawnNewTarget_status, h12.1]; exact hs
      · rw [spawnNewTarget_activeCell, e8]
      · rw [spawnNewTarget_targetSpawnedAt]
      · rw [spawnNewTarget_hazardCell, e8]

/-- Witness for C5: normal profile, hazard tap on cell 5 from the
concrete hazard state (full clock, so the run does not end). -/
theorem C5_hazard_tap_witness :
    (sHazardEx.status = Status.playing ∧ sHazardEx.hazardCell = some 5 ∧
        sHazardEx.finished = false ∧ sHazardEx.timeLeftRef = sHazardEx.timeLeft) ∧
      ((registerHit normal 25 5 100 rEx sHazardEx).score = max (sHazardEx.score - 10) 0 ∧
        (registerHit normal 25 5 100 rEx sHazardEx).streak = 0 ∧
        (registerHit normal 25 5 100 rEx sHazardEx).missesRef = sHazardEx.missesRef + 1 ∧
        (registerHit normal 25 5 100 rEx sHazardEx).timeLeft =
          max 0 (sHazardEx.timeLeft - (normal.missPenalty + 1)) ∧
        (sHazardEx.timeLeft ≤ normal.missPenalty + 1 →
          (registerHit normal 25 5 100 rEx sHazardEx).status = Status.done ∧
            (registerHit normal 25 5 100 rEx sHazardEx).hazardCell = none ∧
            (registerHit normal 25 5 100 rEx sHazardEx).activeCell = sHazardEx.activeCell ∧
            (registerHit normal 25 5 100 rEx sHazardEx).emitted = sHazardEx.emitted + 1) ∧
        (normal.missPenalty + 1 < sHazardEx.timeLeft →
          (registerHit normal 25 5 100 rEx sHazardEx).status = Status.playing ∧
            (registerHit normal 25 5 100 rEx sHazardEx).activeCell =
              pickCell sHazardEx.activeCell [] 25 rEx.activeRand ∧
            (registerHit normal 25 5 100 rEx sHazardEx).targetSpawnedAt = 100 ∧
            (registerHit normal 25 5 100 rEx sHazardEx).hazardCell =
              (if rEx.hazardRoll < normal.hazardChance then
                some (pickCell (pickCell sHazardEx.activeCell [] 25 rEx.activeRand)
                  [pickCell sHazardEx.activeCell [] 25 rEx.activeRand] 25 rEx.hazardRand)
              else none))) :=
  ⟨⟨rfl, rfl, rfl, rfl⟩, C5_hazard_tap normal 25 5 100 rEx sHazardEx rfl rfl rfl rfl⟩

theorem applyTimePenalty_hazardCell (amount : ℚ) (s : GameState) :
    (applyTimePenalty amount s).2.hazardCell = s.hazardCell := by
  unfold applyTimePenalty
  dsimp only
  split
  · rw [endRun_hazardCell]
  · rfl

theorem registerHit_correct_key (p : Profile) (count : ℕ) (cell : ℤ) (now : ℚ)
    (r : SpawnRand) (s : GameState) (hs : s.status = Status.playing)
    (hh : s.hazardCell ≠ some cell) (hc : cell = s.activeCell) :
    registerHit p count cell now r s =
      spawnNewTarget p count now r
        { s with
          fastestHit :=
            match s.fastestHit with
            | none => some (jsRound (now - s.targetSpawnedAt))
            | some f => some (min f (jsRound (now - s.targetSpawnedAt)))
          totalReactionMs := s.totalReactionMs + (now - s.targetSpawnedAt)
          hits := s.hits + 1
          score := max (s.score +
            (15 + max 2 (jsRound ((1200 - (now - s.targetSpawnedAt)) / 30))
              + max 0 ((s.streak : ℤ) - 1) * 4)) 0
          streak := s.streak + 1
          maxStreak := max s.maxStreak (s.streak + 1)
          timeLeftRef := clamp (s.timeLeftRef + max p.minGain
            (max p.rewardFloor
              (5/4 - (now - s.targetSpawnedAt) / p.rewardSlope
                - (s.streak : ℚ) * p.rewardStreakFactor) + p.rewardBonus)) 0 p.timeRewardCap
          timeLeft := clamp (s.timeLeftRef + max p.minGain
            (max p.rewardFloor
              (5/4 - (now - s.targetSpawnedAt) / p.rewardSlope
                - (s.streak : ℚ) * p.rewardStreakFactor) + p.rewardBonus)) 0 p.timeRewardCap } := by
  unfold registerHit
  rw [if_pos hs, if_neg (fun h2 => hh h2.symm), if_neg (fun h2 => h2 hc)]

/-- C3 (amended): on a correct tap while playing, with reaction
`r = now − targetSpawnedAt` and current streak `s`, the score increases
by `15 + max(2, round((1200 − r)/30)) + max(0, s−1)·4`, `timeLeft`
becomes `clamp(timeLeft + max(minGain, max(rewardFloor, 1.25 − r/rewardSlope
− s·rewardStreakFactor) + rewardBonus), 0, timeRewardCap)`, and the streak
increments; for the normal profile a first correct tap at 300 ms from
`timeLeft = 30` gains 45 points and raises `timeLeft` to
`29827/940 ≈ 31.7309` (31.73 only after rounding to two decimals), not
exactly 31.73. -/
theorem C3_correct_tap_formulas (p : Profile) (count : ℕ) (cell : ℤ) (now : ℚ)
    (r : SpawnRand) (s : GameState) (hs : s.status = Status.playing)
    (hh : s.hazardCell ≠ some cell) (hc : cell = s.activeCell)
    (hsc : 0 ≤ s.score) (href : s.timeLeftRef = s.timeLeft) :
    (registerHit p count cell now r s).score =
        s.score + (15 + max 2 (jsRound ((1200 - (now - s.targetSpawnedAt)) / 30))
          + max 0 ((s.streak : ℤ) - 1) * 4) ∧
      (registerHit p count cell now r s).timeLeft =
        clamp (s.timeLeft + max p.minGain
          (max p.rewardFloor
            (5/4 - (now - s.targetSpawnedAt) / p.rewardSlope
              - (s.streak : ℚ) * p.rewardStreakFactor) + p.rewardBonus)) 0 p.timeRewardCap ∧
      (registerHit p count cell now r s).streak = s.streak + 1 := by
  rw [registerHit_correct_key p count cell now r s hs hh hc]
  refine ⟨?_, ?_, ?_⟩
  · rw [spawnNewTarget_score]
    have h2 : (2 : ℤ) ≤ max 2 (jsRound ((1200 - (now - s.targetSpawnedAt)) / 30)) :=
      le_max_left 2 _
    have h3 : (0 : ℤ) ≤ max 0 ((s.streak : ℤ) - 1) * 4 :=
      mul_nonneg (le_max_left 0 _) (by norm_num)
    exact max_eq_left (by linarith)
  · rw [spawnNewTarget_timeLeft]
    show clamp (s.timeLeftRef + _) 0 _ = _
    rw [href]
  · rw [spawnNewTarget_streak]

/-- Witness for C3 (amended), doubling as the corrected concrete
scenario: normal profile, first correct tap at reaction 300 ms, streak 0,
`timeLeft` 30 — score gain 45 and new `timeLeft` exactly `29827/940`. -/
theorem C3_correct_tap_formulas_witness :
    (sPlayEx.status = Status.playing ∧ sPlayEx.hazardCell ≠ some 3 ∧
        (3 : ℤ) = sPlayEx.activeCell ∧ (0 : ℤ) ≤ sPlayEx.score ∧
        sPlayEx.timeLeftRef = sPlayEx.timeLeft) ∧
      (registerHit normal 25 3 300 rEx sPlayEx).score = 45 ∧
      (registerHit normal 25 3 300 rEx sPlayEx).timeLeft = 29827/940 ∧
      (registerHit normal 25 3 300 rEx sPlayEx).streak = 1 := by
  have h := C3_correct_tap_formulas normal 25 3 300 rEx sPlayEx rfl
    (by simp [sPlayEx]) rfl (le_refl 0) rfl
  obtain ⟨h1, h2, h3⟩ := h
  refine ⟨⟨rfl, by simp [sPlayEx], rfl, le_refl 0, rfl⟩, ?_, ?_, h3⟩
  · rw [h1]
    have hj : jsRound ((1200 - ((300 : ℚ) - sPlayEx.targetSpawnedAt)) / 30) = 30 := by
      apply jsRound_eval
      · show (30 : ℚ) ≤ _; norm_num [sPlayEx]
      · show _ < (30 : ℚ) + 1; norm_num [sPlayEx]
    rw [hj]
    norm_num [sPlayEx]
  · rw [h2]
    show clamp (sPlayEx.timeLeft + max normal.minGain
      (max normal.rewardFloor
        (5/4 - ((300 : ℚ) - sPlayEx.targetSpawnedAt) / normal.rewardSlope
          - (sPlayEx.streak : ℚ) * normal.rewardStreakFactor) + normal.rewardBonus))
      0 normal.timeRewardCap = 29827/940
    norm_num [sPlayEx, normal, clamp, max_def, min_def]

/-- Counterexample to C3 as stated: at that very scenario the new
`timeLeft` is `29827/940 = 31.7308510…`, which is not the claimed 31.73
(`= 3173/100`); the spec's 31.73 is a two-decimal rounding. -/
theorem C3_timeLeft_not_31_73 :
    (registerHit normal 25 3 300 rEx sPlayEx).timeLeft = 29827/940 ∧
      ((29827 : ℚ)/940) ≠ 3173/100 := by
  constructor
  · rw [registerHit_correct_key normal 25 3 300 rEx sPlayEx rfl (by simp [sPlayEx]) rfl]
    rw [spawnNewTarget_timeLeft]
    show clamp (sPlayEx.timeLeftRef + max normal.minGain
      (max normal.rewardFloor
        (5/4 - ((300 : ℚ) - sPlayEx.targetSpawnedAt) / normal.rewardSlope
          - (sPlayEx.streak : ℚ) * normal.rewardStreakFactor) + normal.rewardBonus))
      0 normal.timeRewardCap = 29827/940
    norm_num [sPlayEx, normal, clamp, max_def, min_def]
  · norm_num

/-- C9 (amended): the reaction used on a correct tap is the raw
difference `now − targetSpawnedAt` with no clamping; it is nonnegative
exactly when the clock is monotone (`targetSpawnedAt ≤ now`), which the
host's `performance.now()` guarantees. -/
theorem C9_reaction_unclamped (p : Profile) (count : ℕ) (cell : ℤ) (now : ℚ)
    (r : SpawnRand) (s : GameState) (hs : s.status = Status.playing)
    (hh : s.hazardCell ≠ some cell) (hc : cell = s.activeCell)
    (hmono : s.targetSpawnedAt ≤ now) :
    (registerHit p count cell now r s).totalReactionMs =
        s.totalReactionMs + (now - s.targetSpawnedAt) ∧
      0 ≤ now - s.targetSpawnedAt := by
  rw [registerHit_correct_key p count cell now r s hs hh hc]
  exact ⟨spawnNewTarget_totalReactionMs _ _ _ _ _, sub_nonneg.mpr hmono⟩

/-- Witness for C9 (amended): concrete tap at 300 ms after a spawn at 0. -/
theorem C9_reaction_unclamped_witness :
    (sPlayEx.status = Status.playing ∧ sPlayEx.hazardCell ≠ some 3 ∧
        (3 : ℤ) = sPlayEx.activeCell ∧ sPlayEx.targetSpawnedAt ≤ 300) ∧
      ((registerHit normal 25 3 300 rEx sPlayEx).totalReactionMs =
          sPlayEx.totalReactionMs + (300 - sPlayEx.targetSpawnedAt) ∧
        (0 : ℚ) ≤ 300 - sPlayEx.targetSpawnedAt) :=
  ⟨⟨rfl, by simp [sPlayEx], rfl, by norm_num [sPlayEx]⟩,
    C9_reaction_unclamped normal 25 3 300 rEx sPlayEx rfl (by simp [sPlayEx]) rfl
      (by norm_num [sPlayEx])⟩

/-- Counterexample to C9 as stated: with a spawn timestamp of 200 and a
tap at 100 the code uses the raw reaction −100 (no clamp): the reaction
sum becomes −100 and the score gain is computed from −100 (58 points,
where a clamped reaction of 0 would give 55). -/
theorem C9_negative_reaction_counterexample :
    (registerHit normal 25 3 100 rEx sSpawn200Ex).totalReactionMs = -100 ∧
      ¬ ((0 : ℚ) ≤ -100) ∧
      (registerHit normal 25 3 100 rEx sSpawn200Ex).score = 58 := by
  rw [registerHit_correct_key normal 25 3 100 rEx sSpawn200Ex rfl
    (by simp [sSpawn200Ex, sPlayEx]) rfl]
  refine ⟨?_, by norm_num, ?_⟩
  · rw [spawnNewTarget_totalReactionMs]
    show sSpawn200Ex.totalReactionMs + ((100 : ℚ) - sSpawn200Ex.targetSpawnedAt) = -100
    norm_num [sSpawn200Ex, sPlayEx]
  · rw [spawnNewTarget_score]
    have hj : jsRound ((1200 - ((100 : ℚ) - sSpawn200Ex.targetSpawnedAt)) / 30) = 43 := by
      apply jsRound_eval
      · show (43 : ℚ) ≤ _; norm_num [sSpawn200Ex, sPlayEx]
      · show _ < (43 : ℚ) + 1; norm_num [sSpawn200Ex, sPlayEx]
    show max (sSpawn200Ex.score +
      (15 + max 2 (jsRound ((1200 - ((100 : ℚ) - sSpawn200Ex.targetSpawnedAt)) / 30))
        + max 0 ((sSpawn200Ex.streak : ℤ) - 1) * 4)) 0 = 58
    rw [hj]
    norm_num [sSpawn200Ex, sPlayEx, max_def]

/-- C8 (amended): `reset` (start/restart) is rejected as a no-op exactly
when the supplied player name is empty or whitespace-only; it performs no
status check of its own (the pause overlay's Restart button invokes it
from `paused`), and when accepted it resets every counter, sets
`timeLeft` to the profile's `startTime`, spawns the first target, and
sets status `playing`. -/
theorem C8_reset_spec (nameBlank nameOk : String) (p : Profile) (count : ℕ)
    (now : ℚ) (r : SpawnRand) (s₀ s : GameState)
    (h₀ : (jsTrim nameBlank.toList).length = 0)
    (h₁ : (jsTrim nameOk.toList).length ≠ 0) :
    reset nameBlank p count now r s₀ = s₀ ∧
      (reset nameOk p count now r s).score = 0 ∧
      (reset nameOk p count now r s).streak = 0 ∧
      (reset nameOk p count now r s).misses = 0 ∧
      (reset nameOk p count now r s).missesRef = 0 ∧
      (reset nameOk p count now r s).hits = 0 ∧
      (reset nameOk p count now r s).fastestHit = none ∧
      (reset nameOk p count now r s).totalReactionMs = 0 ∧
      (reset nameOk p count now r s).maxStreak = 0 ∧
      (reset nameOk p count now r s).timeLeft = p.startTime ∧
      (reset nameOk p count now r s).timeLeftRef = p.startTime ∧
      (reset nameOk p count now r s).status = Status.playing ∧
      (reset nameOk p count now r s).finished = false ∧
      (reset nameOk p count now r s).activeCell = pickCell (-1) [] count r.activeRand ∧
      (reset nameOk p count now r s).targetSpawnedAt = now := by
  have hko : reset nameOk p count now r s = resetRun p count now r s := by
    unfold reset
    rw [if_neg h₁]
  rw [hko]
  refine ⟨?_, rfl, rfl, rfl, rfl, rfl, rfl, rfl, rfl, rfl, rfl, rfl, rfl, rfl, rfl⟩
  unfold reset
  rw [if_pos h₀]

/-- Witness for C8 (amended): blank name `"  "` rejected, name `"ann"`
accepted, from the concrete paused state. -/
theorem C8_reset_spec_witness :
    ((jsTrim "  ".toList).length = 0 ∧ (jsTrim "ann".toList).length ≠ 0) ∧
      (reset "  " normal 25 0 rEx sPausedEx = sPausedEx ∧
        (reset "ann" normal 25 0 rEx sPausedEx).score = 0 ∧
        (reset "ann" normal 25 0 rEx sPausedEx).streak = 0 ∧
        (reset "ann" normal 25 0 rEx sPausedEx).misses = 0 ∧
        (reset "ann" normal 25 0 rEx sPausedEx).missesRef = 0 ∧
        (reset "ann" normal 25 0 rEx sPausedEx).hits = 0 ∧
        (reset "ann" normal 25 0 rEx sPausedEx).fastestHit = none ∧
        (reset "ann" normal 25 0 rEx sPausedEx).totalReactionMs = 0 ∧
        (reset "ann" normal 25 0 rEx sPausedEx).maxStreak = 0 ∧
        (reset "ann" normal 25 0 rEx sPausedEx).timeLeft = normal.startTime ∧
        (reset "ann" normal 25 0 rEx sPausedEx).timeLeftRef = normal.startTime ∧
        (reset "ann" normal 25 0 rEx sPausedEx).status = Status.playing ∧
        (reset "ann" normal 25 0 rEx sPausedEx).finished = false ∧
        (reset "ann" normal 25 0 rEx sPausedEx).activeCell =
          pickCell (-1) [] 25 rEx.activeRand ∧
        (reset "ann" normal 25 0 rEx sPausedEx).targetSpawnedAt = 0) :=
  ⟨⟨by decide, by decide⟩,
    C8_reset_spec "  " "ann" normal 25 0 rEx sPausedEx sPausedEx (by decide) (by decide)⟩

/-- Counterexample to C8 as stated: `reset` with a nonempty name is
accepted from the `paused` state (the claim allows it only from `idle` or
`done`): it is not a no-op there — the paused mid-run state with score 7
is wiped and the status jumps to `playing`. -/
theorem C8_reset_from_paused_counterexample :
    sPausedEx.status = Status.paused ∧ sPausedEx.score = 7 ∧
      (reset "ann" normal 25 0 rEx sPausedEx).status = Status.playing ∧
      (reset "ann" normal 25 0 rEx sPausedEx).score = 0 := by
  have hko : reset "ann" normal 25 0 rEx sPausedEx = resetRun normal 25 0 rEx sPausedEx := by
    unfold reset
    rw [if_neg (by decide)]
  rw [hko]
  exact ⟨rfl, rfl, rfl, rfl⟩

/-! ### Hazard-free invariant for the normal profile -/

theorem resetRun_normal_hazardCell (count : ℕ) (now : ℚ) (r : SpawnRand)
    (s0 : GameState) : (resetRun normal count now r s0).hazardCell = none := by
  unfold resetRun
  dsimp only
  rw [if_neg]
  rintro ⟨h0, _⟩
  norm_num [normal] at h0

theorem step_hazard_none (count : ℕ) (e : Event) (he : e.rollOk) (s : GameState)
    (h : s.hazardCell = none) : (step normal count e s).hazardCell = none := by
  have hroll : ∀ (now : ℚ) (r : SpawnRand) (t : GameState), 0 ≤ r.hazardRoll →
      (spawnNewTarget normal count now r t).hazardCell = none := by
    intro now r t hr
    rw [spawnNewTarget_hazardCell, if_neg]
    show ¬ (r.hazardRoll < normal.hazardChance)
    have : normal.hazardChance = 0 := rfl
    rw [this]
    exact not_lt.mpr hr
  cases e with
  | tick =>
    show (tickStep s).hazardCell = none
    unfold tickStep
    dsimp only
    split
    · rw [endRun_hazardCell]; exact h
    · exact h
  | tap cell now r =>
    show (registerHit normal count cell now r s).hazardCell = none
    unfold registerHit
    split
    · rw [if_neg (by rw [h]; intro hx; cases hx)]
      split
      · rw [applyTimePenalty_hazardCell]
        exact h
      · exact hroll now r _ he
    · exact h
  | deadline now r =>
    show (registerMiss normal count now r s).hazardCell = none
    unfold registerMiss
    dsimp only
    split
    · split
      · rw [applyTimePenalty_hazardCell]
        exact h
      · exact hroll now r _ he
    · exact h
  | pauseKey =>
    show ((if s.status = Status.playing then
      { s with status := Status.paused } else s)).hazardCell = none
    split <;> exact h
  | resumeKey =>
    show ((if s.status = Status.paused then
      { s with status := Status.playing } else s)).hazardCell = none
    split <;> exact h
  | lateEnd =>
    show (endRun s).hazardCell = none
    rw [endRun_hazardCell]
    exact h

/-- C10: under the normal profile (`hazardChance = 0`), `hazardCell` is
`null` at run start and stays `null` after every spawn along any event
trace — the hazard draw `random() < hazardChance` can never fire, since
every `Math.random()` value is nonnegative. -/
theorem C10_normal_hazard_free (count : ℕ) (now : ℚ) (r : SpawnRand)
    (s0 : GameState) (trace : List Event) (hroll : ∀ e ∈ trace, e.rollOk) :
    (resetRun normal count now r s0).hazardCell = none ∧
      (runTrace normal count trace (resetRun normal count now r s0)).hazardCell = none := by
  refine ⟨resetRun_normal_hazardCell count now r s0, ?_⟩
  exact runTrace_preserve normal count (fun t => t.hazardCell = none) trace
    (fun e he t ht => step_hazard_none count e (hroll e he) t ht) _
    (resetRun_normal_hazardCell count now r s0)

/-- Witness for C10: a two-event trace — a correct tap then a deadline
miss — with nonnegative hazard rolls. -/
theorem C10_normal_hazard_free_witness :
    (∀ e ∈ [Event.tap 3 100 rEx, Event.deadline 200 rEx], e.rollOk) ∧
      ((resetRun normal 25 0 rEx s0Ex).hazardCell = none ∧
        (runTrace normal 25 [Event.tap 3 100 rEx, Event.deadline 200 rEx]
          (resetRun normal 25 0 rEx s0Ex)).hazardCell = none) := by
  have hr : ∀ e ∈ [Event.tap 3 100 rEx, Event.deadline 200 rEx], e.rollOk := by
    intro e he
    simp only [List.mem_cons, List.not_mem_nil, or_false] at he
    rcases he with rfl | rfl
    · exact le_refl 0
    · exact le_refl 0
  exact ⟨hr, C10_normal_hazard_free 25 0 rEx s0Ex _ hr⟩

end ReflexTile
